import Mathlib

/-!
Verification of the SQL repair pipeline, result formatting, logging and
orchestration logic of the Porter Request Analytics Chatbot
(`src/main.py`, `src/config.py`).

Strings are embedded as `List Char`.  Python's `re` patterns used by the
code are specialised to executable scanners that reproduce `re.sub`'s
leftmost, non-overlapping semantics for exactly the patterns appearing in
the source.  Character classes model the ASCII behaviour of Python's
`\s`, `\d`, `\w`, `str.lower`, `str.upper` (all strings handled by the
program are ASCII apart from emoji in canned messages, which no character
class touches).

Scanning functions take an explicit fuel argument (one unit per scan
position); fuel equal to the string length always suffices because every
step consumes at least one character.  Top-level wrappers pass that fuel.
-/

namespace Porter

abbrev Str := List Char

/-- ASCII model of Python `str.lower` for a single character. -/
def toLowerA (c : Char) : Char :=
  if 65 ≤ c.toNat ∧ c.toNat ≤ 90 then Char.ofNat (c.toNat + 32) else c

/-- ASCII model of Python `str.upper` for a single character. -/
def toUpperA (c : Char) : Char :=
  if 97 ≤ c.toNat ∧ c.toNat ≤ 122 then Char.ofNat (c.toNat - 32) else c

/-- ASCII model of the regex class `\d`. -/
def isDigitA (c : Char) : Bool := decide (48 ≤ c.toNat ∧ c.toNat ≤ 57)

/-- ASCII model of the regex class `\s` (space, tab, newline, carriage
return, vertical tab, form feed). -/
def isWsA (c : Char) : Bool :=
  decide (c.toNat = 32 ∨ c.toNat = 9 ∨ c.toNat = 10 ∨ c.toNat = 13 ∨
    c.toNat = 11 ∨ c.toNat = 12)

/-- ASCII model of the regex class `\w` (used for `\b` boundaries). -/
def isWordA (c : Char) : Bool :=
  decide ((48 ≤ c.toNat ∧ c.toNat ≤ 57) ∨ (65 ≤ c.toNat ∧ c.toNat ≤ 90) ∨
    (97 ≤ c.toNat ∧ c.toNat ≤ 122) ∨ c.toNat = 95)

/-- Python `s.lower()`. -/
def lowerStr (s : Str) : Str := s.map toLowerA

/-- Python `s.upper()`. -/
def upperStr (s : Str) : Str := s.map toUpperA

/-- Python `pat in s` (substring containment). -/
def containsSub (s pat : Str) : Bool :=
  s.tails.any (fun t => pat.isPrefixOf t)

/-- Drop leading Python whitespace. -/
def dropWsL : Str → Str
  | [] => []
  | c :: t => if isWsA c then dropWsL t else c :: t

/-- Python `s.strip()`. -/
def stripA (s : Str) : Str := ((dropWsL ((dropWsL s).reverse)).reverse)

/-- Python `s.rstrip(';')`. -/
def rstripSemi (s : Str) : Str :=
  ((s.reverse.dropWhile (fun c => c = ';')).reverse)

/-! ## The conditional-count casing repair

`_fix_sql_functions` starts with `re.sub(r'\bCOUNTIf\b', 'countIf', sql)`
(src/main.py:463).  The scanner below reproduces it: a match needs the
literal `COUNTIf` with a non-word character (or string edge) on both
sides; the word-boundary on the left is tracked by a flag carrying
whether the previous character was a word character. -/

/-- The right word-boundary of `\bCOUNTIf\b`: end of string or a
non-word character. -/
def cntBoundary : Str → Bool
  | [] => true
  | c :: _ => !isWordA c

/-- Try to match `COUNTIf\b` at the head of `s`; the left boundary is
checked by the caller.  Returns the rest after the match. -/
def cntTry (s : Str) : Option Str :=
  if ("COUNTIf".toList.isPrefixOf s && cntBoundary (s.drop 7)) = true then
    some (s.drop 7)
  else none

/-- One fuel unit per scan position: the body of
`re.sub(r'\bCOUNTIf\b', 'countIf', s)`. -/
def cntSubF : Nat → Bool → Str → Str
  | 0, _, s => s
  | _ + 1, _, [] => []
  | n + 1, prevW, c :: t =>
    if prevW then c :: cntSubF n (isWordA c) t
    else
      match cntTry (c :: t) with
      | some rest => "countIf".toList ++ cntSubF n true rest
      | none => c :: cntSubF n (isWordA c) t

/-- `re.sub(r'\bCOUNTIf\b', 'countIf', s)` (src/main.py:463). -/
def fixCOUNTIf (s : Str) : Str := cntSubF s.length false s

/-- Whether `s` contains a whole-word occurrence of `COUNTIf`, scanning
with the same left-boundary flag. -/
def cntHas : Bool → Str → Bool
  | _, [] => false
  | prevW, c :: t => (!prevW && (cntTry (c :: t)).isSome) || cntHas (isWordA c) t

/-- `\bCOUNTIf\b` occurs in `s`. -/
def hasWordCOUNTIf (s : Str) : Bool := cntHas false s

/-! ## The facility-identifier padding repair

`_fix_facility_id_format` (src/main.py:437-456) runs
`re.sub(r"facility_id\s*=\s*(\d+)", repl, sql, flags=re.IGNORECASE)` where
`repl` quotes the digits zero-padded to four characters
(`f"facility_id = '{digits.zfill(4)}'"`).  The pattern is matched by a
left-to-right automaton `facRun`: states `0`-`10` expect the letters of
`facility_id` case-insensitively, state `11` skips `\s*` and expects `=`,
state `12` skips `\s*` and expects the first digit, at which point the
greedy digit run is captured. -/

/-- The literal `facility_id`, by position. -/
def facLit : Nat → Char
  | 0 => 'f' | 1 => 'a' | 2 => 'c' | 3 => 'i' | 4 => 'l' | 5 => 'i'
  | 6 => 't' | 7 => 'y' | 8 => '_' | 9 => 'i' | 10 => 'd' | _ => ' '

/-- The matching automaton for `facility_id\s*=\s*(\d+)` (ignore-case on
the literal part).  On success returns the captured digit run and the
rest of the string. -/
def facRun : Nat → Str → Option (Str × Str)
  | _, [] => none
  | st, c :: t =>
    if st ≤ 10 then
      if toLowerA c = facLit st then facRun (st + 1) t else none
    else if st = 11 then
      if isWsA c then facRun 11 t
      else if c = '=' then facRun 12 t
      else none
    else if st = 12 then
      if isWsA c then facRun 12 t
      else if isDigitA c then
        some ((c :: t).takeWhile isDigitA, (c :: t).dropWhile isDigitA)
      else none
    else none

/-- Try the facility pattern at the head of `s`. -/
def facMatch (s : Str) : Option (Str × Str) := facRun 0 s

/-- Python `digits.zfill(4)` for a digit run. -/
def padz (ds : Str) : Str := List.replicate (4 - ds.length) '0' ++ ds

/-- The replacement `f"facility_id = '{digits.zfill(4)}'"`. -/
def facRepl (ds : Str) : Str := "facility_id = '".toList ++ padz ds ++ ['\'']

/-- One fuel unit per scan position: the body of the `re.sub` of
`_fix_facility_id_format`. -/
def fixFacF : Nat → Str → Str
  | 0, s => s
  | _ + 1, [] => []
  | n + 1, c :: t =>
    match facMatch (c :: t) with
    | some (ds, rest) => facRepl ds ++ fixFacF n rest
    | none => c :: fixFacF n t

/-- `_fix_facility_id_format` (src/main.py:437-456). -/
def fixFacilityId (s : Str) : Str := fixFacF s.length s

/-- Whether the bare pattern `facility_id\s*=\s*\d+` occurs anywhere in
`s` (this is what the claim calls an unquoted facility predicate). -/
def hasBareFac : Str → Bool
  | [] => false
  | c :: t => (facMatch (c :: t)).isSome || hasBareFac t

/-! ## Generic leftmost substitution and the remaining repair passes -/

/-- Fueled leftmost non-overlapping substitution: `m` tries a match at
the current position and returns the rest after it.  Every matcher used
below consumes at least one character, so fuel equal to the string
length suffices and the fuel-exhausted branch is never taken. -/
def subF (m : Str → Option Str) (repl : Str) : Nat → Str → Str
  | 0, s => s
  | _ + 1, [] => []
  | n + 1, c :: t =>
    match m (c :: t) with
    | some rest => repl ++ subF m repl n rest
    | none => c :: subF m repl n t

/-- Literal matcher (Python `str.replace` / `re.sub` of an escaped
literal).  All literals used below are non-empty. -/
def tryLit (pat s : Str) : Option Str :=
  if pat ≠ [] ∧ pat.isPrefixOf s then some (s.drop pat.length) else none

/-- Python `s.replace(pat, repl)` for a non-empty literal `pat`. -/
def replaceAll (pat repl s : Str) : Str := subF (tryLit pat) repl s.length s

/-- Consume a lowercase literal case-insensitively (`re.IGNORECASE`). -/
def dropLitCi : Str → Str → Option Str
  | [], s => some s
  | _ :: _, [] => none
  | p :: ps, c :: cs => if toLowerA c = p then dropLitCi ps cs else none

/-- Token of the simple regexes used by the NULL/empty repair pass. -/
inductive RTok where
  | lit : Str → RTok
  | litCi : Str → RTok
  | wsPlus : RTok
  | wsStar : RTok

def dropTok : RTok → Str → Option Str
  | .lit l, s => if l.isPrefixOf s then some (s.drop l.length) else none
  | .litCi l, s => dropLitCi l s
  | .wsPlus, [] => none
  | .wsPlus, c :: t => if isWsA c then some (t.dropWhile isWsA) else none
  | .wsStar, s => some (s.dropWhile isWsA)

def dropToks : List RTok → Str → Option Str
  | [], s => some s
  | tk :: tks, s => (dropTok tk s).bind (dropToks tks)

/-- `re.sub` of a token pattern whose first token is a non-empty
literal (so a match consumes at least one character). -/
def reSub (tks : List RTok) (repl s : Str) : Str :=
  subF (dropToks tks) repl s.length s

/-! ### Pass 2: `_fix_sql_functions` (src/main.py:458-492) -/

def ddPre : Str := "round(AVG(dateDiff(".toList

def ddSuf : Str := "))/60.0, 2) AS avg_time_minutes".toList

def ddRepl : Str :=
  "round(AVG(dateDiff('second', scheduled_time, completed_time))/60.0, 2) AS avg_time_minutes".toList

/-- Matcher for
`round\(AVG\(dateDiff\([^)]+\)\)/60\.0, 2\) AS avg_time_minutes`.
`[^)]+` cannot match `)`, so the greedy run needs no backtracking. -/
def ddTry (s : Str) : Option Str :=
  if ddPre.isPrefixOf s then
    let r1 := s.drop ddPre.length
    let run := r1.takeWhile (fun c => c ≠ ')')
    if run.length = 0 then none
    else
      let r2 := r1.drop run.length
      if ddSuf.isPrefixOf r2 then some (r2.drop ddSuf.length) else none
  else none

def ddSub (s : Str) : Str := subF ddTry ddRepl s.length s

/-- The shared `GROUP BY porter_user_id` insertion (src/main.py:480-483
and 487-490): checks `ORDER BY` on the uppercased SQL but replaces the
exact-case literal. -/
def groupByFix (s : Str) : Str :=
  if containsSub (upperStr s) "ORDER BY".toList then
    replaceAll "ORDER BY".toList "GROUP BY porter_user_id ORDER BY".toList s
  else rstripSemi s ++ " GROUP BY porter_user_id".toList

/-- `_fix_sql_functions` (src/main.py:458-492). -/
def fixSqlFunctions (s : Str) : Str :=
  let s := fixCOUNTIf s
  let s := if containsSub s "priority > 0".toList then
      replaceAll "priority > 0".toList "priority = 1".toList s
    else s
  let s := if containsSub s "dateDiff".toList && containsSub s "AVG(".toList
      && containsSub s "avg_time".toList then ddSub s else s
  let s := if containsSub (upperStr s) "COUNT(".toList
      && !containsSub (upperStr s) "GROUP BY".toList
      && containsSub s "porter_user_id".toList then groupByFix s else s
  let s := if containsSub s "SELECT porter_user_id".toList
      && containsSub s "round(".toList
      && !containsSub (upperStr s) "GROUP BY".toList then groupByFix s else s
  s

/-! ### Pass 3: `_fix_null_empty_handling` (src/main.py:494-545) -/

/-- Pattern `{field}\s+IS\s+NULL` with `re.IGNORECASE` (`field` given in
lowercase). -/
def isNullPat (f : Str) : List RTok :=
  [.litCi f, .wsPlus, .litCi "is".toList, .wsPlus, .litCi "null".toList]

/-- Pattern `{field}\s*=\s*''` with `re.IGNORECASE`. -/
def eqEmptyPat (f : Str) : List RTok :=
  [.litCi f, .wsStar, .lit "=".toList, .wsStar, .lit "''".toList]

/-- Replacement `({field} IS NULL OR {field} = '')`. -/
def nullRepl (f : Str) : Str :=
  "(".toList ++ f ++ " IS NULL OR ".toList ++ f ++ " = '')".toList

def nullFields : List Str :=
  ["comments".toList, "remarks".toList, "porter_user_id".toList,
    "patient_id".toList]

/-- `_fix_null_empty_handling` (src/main.py:494-545). -/
def fixNullEmpty (q s : Str) : Str :=
  let ql := lowerStr q
  if containsSub ql "null".toList || containsSub ql "empty".toList then
    let cm := "comp_manually".toList
    let s :=
      if containsSub ql cm then
        if containsSub ql "null".toList then
          reSub (isNullPat cm) (nullRepl cm) s
        else if containsSub ql "empty".toList then
          reSub (eqEmptyPat cm) (nullRepl cm) s
        else s
      else s
    nullFields.foldl (fun acc f =>
      if containsSub ql f then
        reSub (eqEmptyPat f) (nullRepl f)
          (reSub (isNullPat f) (nullRepl f) acc)
      else acc) s
  else s

/-! ### Pass 4: `_enhance_date_queries` (src/main.py:547-654) -/

/-- `toDate({col})` → `toDate(toTimeZone({col}, 'Asia/Kolkata'))`. -/
def tzFix (col : Str) (s : Str) : Str :=
  replaceAll ("toDate(".toList ++ col ++ ")".toList)
    ("toDate(toTimeZone(".toList ++ col ++ ", 'Asia/Kolkata'))".toList) s

/-- The `SELECT *` expansion built at src/main.py:570-588. -/
def selectClause : Str :=
  "SELECT id, facility_id, requester_user_id, porter_user_id, request_performer_status, priority, comments, toTimeZone(scheduled_time, 'Asia/Kolkata') as scheduled_time, toTimeZone(start_time, 'Asia/Kolkata') as start_time, toTimeZone(end_time, 'Asia/Kolkata') as end_time, toTimeZone(assigned_time, 'Asia/Kolkata') as assigned_time, toTimeZone(accepted_time, 'Asia/Kolkata') as accepted_time, toTimeZone(arrived_time, 'Asia/Kolkata') as arrived_time, toTimeZone(cancelled_time, 'Asia/Kolkata') as cancelled_time, toTimeZone(onhold_time, 'Asia/Kolkata') as onhold_time, toTimeZone(inprogress_time, 'Asia/Kolkata') as inprogress_time, toTimeZone(rejected_time, 'Asia/Kolkata') as rejected_time, toTimeZone(completed_time, 'Asia/Kolkata') as completed_time".toList

def hourPat : Str :=
  "toHour(toTimeZone(scheduled_time, 'Asia/Kolkata')) AS request_hour".toList

def hourRepl : Str :=
  "concat(toString(toHour(toTimeZone(scheduled_time, 'Asia/Kolkata'))), ':00 - ', toString(toHour(toTimeZone(scheduled_time, 'Asia/Kolkata'))), ':59') AS time_range, toHour(toTimeZone(scheduled_time, 'Asia/Kolkata')) AS hour_number".toList

def hourGrpPat : Str :=
  "GROUP BY request_hour ORDER BY request_hour".toList

def hourGrpRepl : Str :=
  "GROUP BY toHour(toTimeZone(scheduled_time, 'Asia/Kolkata')) ORDER BY hour_number".toList

/-- The month-name table of src/main.py:632-636, mapped straight to the
decimal text interpolated by `f"... = {month_num}"`. -/
def monthNames : List (Str × Str) :=
  [("january".toList, "1".toList), ("february".toList, "2".toList),
   ("march".toList, "3".toList), ("april".toList, "4".toList),
   ("may".toList, "5".toList), ("june".toList, "6".toList),
   ("july".toList, "7".toList), ("august".toList, "8".toList),
   ("september".toList, "9".toList), ("october".toList, "10".toList),
   ("november".toList, "11".toList), ("december".toList, "12".toList)]

/-- One position of
`re.search(r"(january|...|december)\s+2025", question_lower)`: the
question is already lowercased, and no two month names can both match at
one position. -/
def monthTryAt (s : Str) : Option Str :=
  monthNames.findSome? (fun p =>
    match dropTok (.lit p.1) s with
    | some r1 =>
      match dropTok .wsPlus r1 with
      | some r2 => if "2025".toList.isPrefixOf r2 then some p.2 else none
      | none => none
    | none => none)

/-- `re.search` of the month pattern: leftmost position that matches. -/
def monthSearch : Str → Option Str
  | [] => none
  | c :: t =>
    match monthTryAt (c :: t) with
    | some v => some v
    | none => monthSearch t

def perDayWhere (mn : Str) : Str :=
  "FROM fact_porter_request WHERE toYear(toTimeZone(scheduled_time, 'Asia/Kolkata')) = 2025 AND toMonth(toTimeZone(scheduled_time, 'Asia/Kolkata')) = ".toList ++ mn

/-- `_enhance_date_queries` (src/main.py:547-654). -/
def enhanceDate (q s : Str) : Str :=
  let ql := lowerStr q
  let s := tzFix "scheduled_time".toList s
  let s := ["start_time".toList, "end_time".toList, "completed_time".toList,
    "assigned_time".toList].foldl (fun acc col => tzFix col acc) s
  let s := if containsSub s "SELECT *".toList
      && (["show".toList, "list".toList, "display".toList].any
        (fun w => containsSub ql w))
      && !containsSub ql "count".toList then
      replaceAll "SELECT *".toList selectClause s
    else s
  let s := if containsSub ql "june 2".toList then
      let s := replaceAll "'2025-06-01'".toList "'2025-06-02'".toList s
      let s := replaceAll "'06-01'".toList "'2025-06-02'".toList s
      let s := replaceAll "'06-02'".toList "'2025-06-02'".toList s
      if !containsSub s
          "toDate(toTimeZone(scheduled_time, 'Asia/Kolkata'))".toList
          && containsSub s "toDate(scheduled_time)".toList then
        tzFix "scheduled_time".toList s
      else s
    else s
  let s := if containsSub ql "june 1".toList then
      let s := replaceAll "'2025-06-02'".toList "'2025-06-01'".toList s
      replaceAll "'06-02'".toList "'2025-06-01'".toList s
    else s
  let s := if containsSub ql "may 31".toList then
      let s := replaceAll "'05-31'".toList "'2025-05-31'".toList s
      reSub [.litCi "'may 31'".toList] "'2025-05-31'".toList s
    else s
  let s := if containsSub ql "last request".toList
      && !containsSub (lowerStr s) "order by".toList then
      rstripSemi s ++ " ORDER BY scheduled_time DESC LIMIT 1".toList
    else s
  let s := if containsSub ql "hourly".toList
      || containsSub ql "hour by hour".toList then
      if containsSub s hourPat then
        replaceAll hourGrpPat hourGrpRepl (replaceAll hourPat hourRepl s)
      else s
    else s
  match monthSearch ql with
  | some mn =>
    if containsSub ql "per day".toList
        && !containsSub (upperStr s) "GROUP BY".toList then
      let s := replaceAll "FROM fact_porter_request".toList (perDayWhere mn) s
      if containsSub (upperStr s) "SELECT".toList
          && !containsSub (upperStr s) "GROUP BY".toList then
        replaceAll "ORDER BY".toList
          "GROUP BY toDate(toTimeZone(scheduled_time, 'Asia/Kolkata')) ORDER BY".toList
          s
      else s
    else s
  | none => s

/-- The four repair passes in the order applied by `convert_to_sql`
(src/main.py:413-423). -/
def repairPipeline (q s : Str) : Str :=
  enhanceDate q (fixNullEmpty q (fixSqlFunctions (fixFacilityId s)))

/-! ## `_generate_explanation` (src/main.py:656-811)

The final `else` of the cascade (src/main.py:763) contains only a nested
`def _analyze_error ...` (a misplaced copy of the module-level
`analyze_error`, src/main.py:31) and no `return`, so the Python function
falls off its end and returns `None` there, despite its `-> str`
annotation.  The embedding returns an `Option Str`, `none` on that
path. -/

def anyIn (ql : Str) (ws : List Str) : Bool := ws.any (fun w => containsSub ql w)

def genExplanation (q sql : Str) : Option Str :=
  let ql := lowerStr q
  let sqlL := lowerStr sql
  if anyIn ql ["count".toList, "how many".toList, "number of".toList] then
    if containsSub ql "facility".toList then
      some "This query counts the total number of requests for each facility in the database.".toList
    else if containsSub ql "porter".toList then
      some "This query counts how many requests each porter has handled.".toList
    else if containsSub ql "status".toList then
      some "This query breaks down the total requests by their current status.".toList
    else if containsSub ql "asset category".toList then
      some "This query shows the distribution of requests across different asset categories.".toList
    else if containsSub ql "service group".toList then
      some "This query counts requests grouped by their service group classification.".toList
    else if containsSub ql "priority".toList then
      some "This query shows how many requests exist at each priority level.".toList
    else
      some "This query counts records and groups them by the specified criteria.".toList
  else if anyIn ql ["tat".toList, "turnaround".toList, "average time".toList] then
    if containsSub ql "minimum".toList || containsSub ql "min".toList then
      some "This query finds which porter has the fastest average turnaround time (from scheduled to completed).".toList
    else if containsSub ql "maximum".toList || containsSub ql "max".toList then
      some "This query identifies which porter has the slowest average turnaround time.".toList
    else if containsSub ql "facility".toList then
      some "This query calculates the average turnaround time for each facility, showing operational efficiency.".toList
    else if containsSub ql "porter".toList then
      some "This query shows each porter's average turnaround time performance.".toList
    else if containsSub ql "over".toList && containsSub ql "minutes".toList then
      some "This query finds all requests that took longer than the specified time to complete.".toList
    else
      some "This query calculates turnaround time (the duration from when a request was scheduled to when it was completed).".toList
  else if anyIn ql ["cancelled".toList, "completed".toList, "in progress".toList, "assigned".toList] then
    if containsSub ql "cancelled".toList then
      if containsSub ql "facility".toList then
        some "This query shows all cancelled requests for the specified facility.".toList
      else
        some "This query retrieves all requests that were cancelled before completion.".toList
    else if containsSub ql "completed".toList then
      some "This query shows all successfully completed requests.".toList
    else if containsSub ql "in progress".toList then
      some "This query finds all requests that are currently being worked on.".toList
    else if containsSub ql "assigned".toList then
      some "This query shows requests that have been assigned to porters but may not have started yet.".toList
    else
      some "This query filters requests based on their current status.".toList
  else if anyIn ql ["today".toList, "yesterday".toList, "may".toList, "june".toList, "date".toList, "last week".toList, "between".toList] then
    if containsSub ql "today".toList then
      some "This query shows all requests scheduled for today.".toList
    else if containsSub ql "yesterday".toList then
      some "This query shows all requests from yesterday.".toList
    else if containsSub ql "last week".toList || containsSub ql "past".toList then
      some "This query retrieves requests from the specified time period.".toList
    else if containsSub ql "between".toList then
      some "This query shows requests within the specified date range.".toList
    else
      some "This query filters requests based on their scheduled date.".toList
  else if containsSub ql "porter".toList then
    if containsSub ql "most".toList then
      some "This query identifies the porter who has handled the highest number of requests.".toList
    else if containsSub ql "performance".toList then
      some "This query analyzes porter performance metrics including completion rates and efficiency.".toList
    else if containsSub ql "workload".toList then
      some "This query shows how requests are distributed among different porters.".toList
    else if containsSub ql "efficiency".toList then
      some "This query calculates various efficiency metrics for each porter.".toList
    else
      some "This query analyzes porter-related data and performance.".toList
  else if containsSub ql "facility".toList then
    if containsSub ql "most".toList then
      some "This query identifies which facility generates the highest volume of requests.".toList
    else if containsSub ql "zero".toList then
      some "This query finds facilities that have no cancelled requests.".toList
    else
      some "This query analyzes data grouped by facility.".toList
  else if anyIn ql ["percentage".toList, "rate".toList, "%".toList] then
    some "This query calculates percentage or rate metrics to show proportional relationships in the data.".toList
  else if anyIn ql ["unique".toList, "distribution".toList, "common".toList, "patterns".toList] then
    some "This query explores data patterns and distributions to provide insights.".toList
  else if containsSub ql "and".toList || containsSub ql "with".toList then
    some "This query applies multiple filters to find records matching all specified criteria.".toList
  else if containsSub sqlL "group by".toList then
    some "This query groups data by specific criteria and provides aggregate information.".toList
  else if containsSub sqlL "order by".toList && containsSub sqlL "desc".toList then
    some "This query sorts results in descending order to show the highest values first.".toList
  else if containsSub sqlL "join".toList then
    some "This query combines data from multiple tables to provide enriched information.".toList
  else
    none

/-! ## `convert_to_sql` (src/main.py:288-435)

The text-generation backend is external; its outcome is an explicit
`Except` input: `.error e` models the `except` branch (src/main.py:433),
`.ok content` the returned message content after `.strip()`
(src/main.py:408). -/

def convertToSql (q : Str) (backend : Except Str Str) : Str × Option Str :=
  match backend with
  | .error e => ([], some ("Error generating SQL: ".toList ++ e))
  | .ok content =>
    let s := stripA content
    let s := stripA (replaceAll "```".toList []
      (replaceAll "```sql".toList [] s))
    let s := repairPipeline q s
    (s, genExplanation q s)

/-! ## `ClickHouseConnection.execute_query` (src/main.py:167-187):
the query transformation before dispatch. -/

def natDigitsF : Nat → Nat → Str
  | 0, _ => []
  | fuel + 1, n =>
    if n < 10 then [Char.ofNat (48 + n)]
    else natDigitsF fuel (n / 10) ++ [Char.ofNat (48 + n % 10)]

def natStr (n : Nat) : Str := natDigitsF (n + 1) n

/-- Python `f"{limit}"` for an `int`. -/
def intStr (i : Int) : Str :=
  if i < 0 then '-' :: natStr (-i).toNat else natStr i.toNat

/-- The decimal digit character for `d < 10`. -/
def decDigit (d : Nat) : Char := Char.ofNat (48 + d)

/-- The spec's `<N zero-padded to 4 digits>` for `N ≤ 9999`, written by
place value, independently of the code's `zfill`. -/
def zeroPad4 (n : Nat) : Str :=
  [decDigit (n / 1000), decDigit (n / 100 % 10), decDigit (n / 10 % 10),
   decDigit (n % 10)]

/-- The string does not start with a digit (so a digit run ending right
before it is maximal, as `\d+` is greedy). -/
def headNotDigit : Str → Bool
  | [] => true
  | c :: _ => !isDigitA c

/-- The query text actually sent by `execute_query`: a `LIMIT` clause is
appended only under the guard of src/main.py:174 (`limit` truthy and
positive, stripped query starts with `SELECT` after uppercasing, and the
uppercased query nowhere contains `LIMIT`). -/
def execTransform (query : Str) (limit : Option Int) : Str :=
  match limit with
  | none => query
  | some l =>
    if (decide (l ≠ 0) && decide (0 < l)
        && "SELECT".toList.isPrefixOf (upperStr (stripA query))
        && !containsSub (upperStr query) "LIMIT".toList) = true then
      query ++ " LIMIT ".toList ++ intStr l
    else query

/-! ## `ResultFormatter.should_create_chart` (src/main.py:966-989)

A pandas result is abstracted to what the function inspects: its row
count, column count and whether any column dtype is numeric
(`df.empty` is true when either axis has length 0). -/

structure DFrame where
  nrows : Nat
  ncols : Nat
  hasNumeric : Bool
deriving DecidableEq

def dfEmpty (d : DFrame) : Bool := decide (d.nrows = 0) || decide (d.ncols = 0)

def chartKeywords : List Str :=
  ["count".toList, "average".toList, "sum".toList, "total".toList,
   "by".toList, "group".toList, "distribution".toList, "trends".toList,
   "patterns".toList, "volume".toList, "per day".toList, "daily".toList,
   "hourly".toList]

def forceChartKeywords : List Str :=
  ["daily".toList, "hourly".toList, "per day".toList, "trends".toList,
   "distribution".toList, "patterns".toList]

def shouldCreateChart (d : DFrame) (q : Str) : Bool :=
  if dfEmpty d || decide (100 < d.nrows) then false
  else
    let base := anyIn (lowerStr q) chartKeywords
      && d.hasNumeric && decide (2 ≤ d.ncols) && decide (2 ≤ d.nrows)
    if anyIn (lowerStr q) forceChartKeywords then true else base

/-! ## `PorterChatbot._log_interaction` and `process_query`
(src/main.py:1086-1165) -/

structure LogEntry where
  timestamp : Str
  question : Str
  sql : Option Str
  rowCount : Option Nat
  success : Bool
  error : Option Str
deriving DecidableEq

/-- `_log_interaction` (src/main.py:1156-1165): append, then keep only
the last 200 entries (`history[-200:]`). -/
def logInteraction (e : LogEntry) (hist : List LogEntry) : List LogEntry :=
  let h := hist ++ [e]
  if 200 < h.length then h.drop (h.length - 200) else h

structure PQOutcome where
  success : Bool
  error : Option Str
  summary : Str
  sql : Option Str
  rowCount : Option Nat
  explanation : Option (Option Str)
deriving DecidableEq

/-- `process_query` (src/main.py:1086-1154) with its effects explicit:
`conv` is `convert_to_sql`'s result, `execRes` the `(DataFrame,
success)` pair of `execute_query`, `fmtSummary` the summary produced by
the formatter on the success path (it depends on dataframe cell values,
outside this embedding), `exc` an unexpected exception raised in the
formatting region (the only code there not shielded by an inner
`try`), `ts` the `datetime.now()` timestamp, and `hist` the interaction
history.  Returns the result dictionary and the updated history. -/
def processQuery (q ts : Str) (conv : Str × Option Str)
    (execRes : DFrame × Bool) (fmtSummary : Str) (exc : Option Str)
    (hist : List LogEntry) : PQOutcome × List LogEntry :=
  if conv.1 = [] then
    ({ success := false,
       error := some "Failed to generate SQL query".toList,
       summary := "❌ Unable to understand your question. Please try rephrasing.".toList,
       sql := none, rowCount := none, explanation := none }, hist)
  else if execRes.2 = false then
    ({ success := false,
       error := some "Query execution failed".toList,
       summary := "❌ Database query failed. Please try a different question.".toList,
       sql := some conv.1, rowCount := none, explanation := none }, hist)
  else
    match exc with
    | some e =>
      ({ success := false, error := some e,
         summary := "❌ An error occurred while processing your request.".toList,
         sql := none, rowCount := none, explanation := none },
       logInteraction ⟨ts, q, none, none, false, some e⟩ hist)
    | none =>
      ({ success := true, error := none, summary := fmtSummary,
         sql := some conv.1, rowCount := some execRes.1.nrows,
         explanation := some conv.2 },
       logInteraction ⟨ts, q, some conv.1, some execRes.1.nrows, true,
         none⟩ hist)

/-- The eleven timestamp columns of `DatabaseSchema.TIME_COLUMNS`
(src/config.py:153-157). -/
def timeColumns : List Str :=
  ["scheduled_time".toList, "start_time".toList, "end_time".toList,
   "assigned_time".toList, "accepted_time".toList, "arrived_time".toList,
   "cancelled_time".toList, "onhold_time".toList, "inprogress_time".toList,
   "rejected_time".toList, "completed_time".toList]

/-- The columns whose `toDate(...)` calls `_enhance_date_queries`
actually rewrites (src/main.py:556-568). -/
def tzFixedColumns : List Str :=
  ["scheduled_time".toList, "start_time".toList, "end_time".toList,
   "completed_time".toList, "assigned_time".toList]

/-- A minimal query exercising the date-truncation rewrite on one
column. -/
def tzProbe (col : Str) : Str :=
  "SELECT toDate(".toList ++ col ++ ") FROM fact_porter_request".toList

/-- The localized form the spec expects for that query. -/
def tzProbeFixed (col : Str) : Str :=
  "SELECT toDate(toTimeZone(".toList ++ col ++
    ", 'Asia/Kolkata')) FROM fact_porter_request".toList

/-! ## Lemmas about the two regex scanners -/

theorem cntTry_eq_some {s r : Str} (h : cntTry s = some r) :
    "COUNTIf".toList.isPrefixOf s = true ∧ r = s.drop 7 := by
  unfold cntTry at h
  split at h
  · rename_i hc
    simp only [Bool.and_eq_true] at hc
    injection h with h
    exact ⟨hc.1, h.symm⟩
  · exact absurd h (by simp)

theorem cntTry_length {s r : Str} (h : cntTry s = some r) :
    r.length + 7 = s.length := by
  obtain ⟨hp, hr⟩ := cntTry_eq_some h
  have hl : 7 ≤ s.length := by
    have := List.IsPrefix.length_le (List.isPrefixOf_iff_prefix.mp hp)
    simpa using this
  subst hr
  simp [List.length_drop]
  omega

theorem cntTry_head_ne {c : Char} (h : c ≠ 'C') (l : Str) :
    cntTry (c :: l) = none := by
  have hb : (('C' : Char) == c) = false := by
    simp [h.symm]
  simp [cntTry, show "COUNTIf".toList = 'C' :: "OUNTIf".toList from rfl,
    List.isPrefixOf, hb]

theorem cntHas_cons_ne {c : Char} (h : c ≠ 'C') (p : Bool) (l : Str) :
    cntHas p (c :: l) = cntHas (isWordA c) l := by
  simp [cntHas, cntTry_head_ne h]

/-- Scanning the emitted replacement `countIf`: no whole-word `COUNTIf`
can start inside it, and it leaves the boundary flag set. -/
theorem cntHas_countIf (p : Bool) (l : Str) :
    cntHas p ("countIf".toList ++ l) = cntHas true l := by
  show cntHas p ('c' :: 'o' :: 'u' :: 'n' :: 't' :: 'I' :: 'f' :: l) = cntHas true l
  rw [cntHas_cons_ne (by decide), cntHas_cons_ne (by decide),
    cntHas_cons_ne (by decide), cntHas_cons_ne (by decide),
    cntHas_cons_ne (by decide), cntHas_cons_ne (by decide),
    cntHas_cons_ne (by decide)]
  norm_num [show isWordA 'f' = true from by decide]

theorem cntTry_C (X : Str) :
    cntTry ('C' :: X) =
      if ("OUNTIf".toList.isPrefixOf X && cntBoundary (X.drop 6)) = true
      then some (X.drop 6) else none := by
  have h1 : "COUNTIf".toList.isPrefixOf ('C' :: X) =
      "OUNTIf".toList.isPrefixOf X := by
    simp [show "COUNTIf".toList = 'C' :: "OUNTIf".toList from rfl,
      List.isPrefixOf]
  unfold cntTry
  rw [show ('C' :: X).drop 7 = X.drop 6 from rfl, h1]

/-- The scanner with the boundary flag set never disturbs a failing
pattern-plus-boundary check made of word characters. -/
theorem cnt_pattern_preserved (p : Str) (hw : ∀ c ∈ p, isWordA c = true) :
    ∀ n t, (p.isPrefixOf t && cntBoundary (t.drop p.length)) = false →
      (p.isPrefixOf (cntSubF n true t) &&
        cntBoundary ((cntSubF n true t).drop p.length)) = false := by
  induction p with
  | nil =>
    intro n t h
    simp only [List.isPrefixOf, Bool.true_and, List.drop_zero] at h ⊢
    match t, h with
    | y :: t', h =>
      have hy : isWordA y = true := by
        simpa [cntBoundary] using h
      match n with
      | 0 => simpa [cntSubF, cntBoundary] using h
      | m + 1 => simp [cntSubF, cntBoundary, hy]
  | cons a p' ih =>
    intro n t h
    match t with
    | [] =>
      match n with
      | 0 => exact h
      | m + 1 => exact h
    | c :: t' =>
      match n with
      | 0 => exact h
      | m + 1 =>
        by_cases hc : a = c
        · subst hc
          have ha : isWordA a = true := hw a (by simp)
          rw [show cntSubF (m + 1) true (a :: t') =
              a :: cntSubF m (isWordA a) t' from by simp [cntSubF]]
          rw [ha]
          simp only [List.isPrefixOf, beq_self_eq_true, Bool.true_and,
            List.drop_succ_cons, List.length_cons] at h ⊢
          exact ih (fun c hm => hw c (by simp [hm])) m t' h
        · have hb : (a == c) = false := by simp [hc]
          rw [show cntSubF (m + 1) true (c :: t') =
              c :: cntSubF m (isWordA c) t' from by simp [cntSubF]]
          simp [List.isPrefixOf, hb]

theorem cntTry_C_preserved {t : Str} (n : Nat)
    (h : cntTry ('C' :: t) = none) :
    cntTry ('C' :: cntSubF n true t) = none := by
  rw [cntTry_C] at h ⊢
  have hw : ∀ c ∈ "OUNTIf".toList, isWordA c = true := by decide
  have hcond : ("OUNTIf".toList.isPrefixOf t && cntBoundary (t.drop 6)) =
      false := by
    by_contra hb
    simp only [Bool.not_eq_false] at hb
    rw [if_pos (by exact hb)] at h
    exact absurd h (by simp)
  have := cnt_pattern_preserved "OUNTIf".toList hw n t
    (by simpa using hcond)
  rw [if_neg (by simpa using this)]

/-- Completeness of the casing repair: its output contains no whole-word
occurrence of `COUNTIf`, for any boundary flag. -/
theorem cntSubF_clean : ∀ n (prev : Bool) (s : Str), s.length ≤ n →
    cntHas prev (cntSubF n prev s) = false := by
  intro n
  induction n with
  | zero =>
    intro prev s hs
    match s, hs with
    | [], _ => simp [cntSubF, cntHas]
  | succ m ih =>
    intro prev s hs
    match s with
    | [] => simp [cntSubF, cntHas]
    | c :: t =>
      cases prev with
      | true =>
        rw [show cntSubF (m + 1) true (c :: t) =
            c :: cntSubF m (isWordA c) t from by simp [cntSubF]]
        simp only [cntHas, Bool.not_true, Bool.false_and, Bool.false_or]
        exact ih (isWordA c) t (by simpa using Nat.le_of_succ_le_succ hs)
      | false =>
        match hm : cntTry (c :: t) with
        | some rest =>
          rw [show cntSubF (m + 1) false (c :: t) =
              "countIf".toList ++ cntSubF m true rest from by
            simp [cntSubF, hm]]
          rw [cntHas_countIf]
          have hl := cntTry_length hm
          exact ih true rest (by simp at hl hs ⊢; omega)
        | none =>
          rw [show cntSubF (m + 1) false (c :: t) =
              c :: cntSubF m (isWordA c) t from by simp [cntSubF, hm]]
          have htail : cntHas (isWordA c) (cntSubF m (isWordA c) t) = false :=
            ih (isWordA c) t (by simpa using Nat.le_of_succ_le_succ hs)
          by_cases hc : c = 'C'
          · subst hc
            have hw : isWordA 'C' = true := by decide
            rw [hw] at htail ⊢
            have := cntTry_C_preserved m hm
            simp [cntHas, this, htail, hw]
          · simp [cntHas, cntTry_head_ne hc, htail]

/-- A string with no whole-word `COUNTIf` is left unchanged by the
casing repair, for any fuel and matching boundary flag. -/
theorem cntSubF_id : ∀ (s : Str) (prev : Bool) (n : Nat),
    cntHas prev s = false → cntSubF n prev s = s := by
  intro s
  induction s with
  | nil => intro prev n _; cases n <;> rfl
  | cons c t ih =>
    intro prev n h
    simp only [cntHas, Bool.or_eq_false_iff, Bool.and_eq_false_iff] at h
    cases n with
    | zero => rfl
    | succ m =>
      cases prev with
      | true => simp [cntSubF, ih (isWordA c) m h.2]
      | false =>
        have hnone : cntTry (c :: t) = none := by
          rcases h.1 with h1 | h1
          · simp at h1
          · exact Option.not_isSome_iff_eq_none.mp (by simp [h1])
        simp [cntSubF, hnone, ih (isWordA c) m h.2]

theorem facRun_length : ∀ (l : Str) (st : Nat) (p : Str × Str),
    facRun st l = some p → p.2.length < l.length := by
  intro l
  induction l with
  | nil => intro st p h; exact absurd h (by simp [facRun])
  | cons c t ih =>
    intro st p h
    unfold facRun at h
    split at h
    · split at h
      · exact Nat.lt_trans (ih _ _ h) (by simp)
      · exact absurd h (by simp)
    · split at h
      · split at h
        · exact Nat.lt_trans (ih _ _ h) (by simp)
        · split at h
          · exact Nat.lt_trans (ih _ _ h) (by simp)
          · exact absurd h (by simp)
      · split at h
        · split at h
          · exact Nat.lt_trans (ih _ _ h) (by simp)
          · split at h
            · rename_i hdig
              injection h with h
              subst h
              simp only [List.dropWhile, hdig]
              have := List.Sublist.length_le (List.dropWhile_sublist
                (l := t) (p := isDigitA))
              simp
              omega
            · exact absurd h (by simp)
        · exact absurd h (by simp)

theorem facRun_digits : ∀ (l : Str) (st : Nat) (p : Str × Str),
    facRun st l = some p → ∀ c ∈ p.1, isDigitA c = true := by
  intro l
  induction l with
  | nil => intro st p h; exact absurd h (by simp [facRun])
  | cons c t ih =>
    intro st p h
    unfold facRun at h
    split at h
    · split at h
      · exact ih _ _ h
      · exact absurd h (by simp)
    · split at h
      · split at h
        · exact ih _ _ h
        · split at h
          · exact ih _ _ h
          · exact absurd h (by simp)
      · split at h
        · split at h
          · exact ih _ _ h
          · split at h
            · injection h with h
              subst h
              intro x hx
              exact List.mem_takeWhile_imp hx
            · exact absurd h (by simp)
        · exact absurd h (by simp)

/-- In any state the automaton has already entered (state ≥ 1), the
character `f` kills the match: it is not a later literal letter, not
whitespace, not `=`, not a digit. -/
theorem facRun_f_none : ∀ (st : Nat) (X : Str), 1 ≤ st →
    facRun st ('f' :: X) = none := by
  intro st X hst
  by_cases h10 : st ≤ 10
  · interval_cases st <;> simp +decide [facRun, facLit, toLowerA]
  · by_cases h11 : st = 11
    · subst h11; simp +decide [facRun, isWsA]
    · by_cases h12 : st = 12
      · subst h12; simp +decide [facRun, isWsA, isDigitA]
      · unfold facRun
        rw [if_neg h10, if_neg h11, if_neg h12]

/-- Substituting later in the string never revives a match the automaton
has already rejected: the substituted text starts with `f`, which fails
in every state ≥ 1. -/
theorem facRun_preserved : ∀ (n st : Nat) (t : Str), 1 ≤ st →
    facRun st t = none → facRun st (fixFacF n t) = none := by
  intro n
  induction n with
  | zero => intro st t _ h; exact h
  | succ m ih =>
    intro st t hst h
    match t with
    | [] => simp [fixFacF, facRun]
    | c :: t' =>
      match hm : facMatch (c :: t') with
      | some (ds, rest) =>
        rw [show fixFacF (m + 1) (c :: t') = facRepl ds ++ fixFacF m rest
          from by simp [fixFacF, hm]]
        rw [show facRepl ds ++ fixFacF m rest =
          'f' :: ("acility_id = '".toList ++ padz ds ++ ['\''] ++
            fixFacF m rest) from by simp [facRepl]]
        exact facRun_f_none st _ hst
      | none =>
        rw [show fixFacF (m + 1) (c :: t') = c :: fixFacF m t'
          from by simp [fixFacF, hm]]
        unfold facRun at h ⊢
        by_cases h1 : st ≤ 10
        · rw [if_pos h1] at h ⊢
          by_cases h2 : toLowerA c = facLit st
          · rw [if_pos h2] at h ⊢
            exact ih (st + 1) t' (by omega) h
          · rw [if_neg h2]
        · rw [if_neg h1] at h ⊢
          by_cases h2 : st = 11
          · rw [if_pos h2] at h ⊢
            by_cases h3 : isWsA c = true
            · rw [if_pos h3] at h ⊢
              exact ih 11 t' (by omega) h
            · rw [if_neg h3] at h ⊢
              by_cases h4 : c = '='
              · rw [if_pos h4] at h ⊢
                exact ih 12 t' (by omega) h
              · rw [if_neg h4]
          · rw [if_neg h2] at h ⊢
            by_cases h3 : st = 12
            · rw [if_pos h3] at h ⊢
              by_cases h4 : isWsA c = true
              · rw [if_pos h4] at h ⊢
                exact ih 12 t' (by omega) h
              · rw [if_neg h4] at h ⊢
                by_cases h5 : isDigitA c = true
                · rw [if_pos h5] at h
                  exact absurd h (by simp)
                · rw [if_neg h5]
            · rw [if_neg h3]

theorem facMatch_step {c : Char} {t : Str} (n : Nat)
    (h : facMatch (c :: t) = none) :
    facMatch (c :: fixFacF n t) = none := by
  unfold facMatch facRun at h ⊢
  rw [if_pos (by omega)] at h ⊢
  by_cases h1 : toLowerA c = facLit 0
  · rw [if_pos h1] at h ⊢
    exact facRun_preserved n 1 t (by omega) h
  · rw [if_neg h1]

theorem hasBareFac_cons_none {c : Char} {l : Str}
    (h : facMatch (c :: l) = none) :
    hasBareFac (c :: l) = hasBareFac l := by
  simp [hasBareFac, h]

theorem facMatch_cons_ne {c : Char} (h : toLowerA c ≠ 'f') (l : Str) :
    facMatch (c :: l) = none := by
  unfold facMatch facRun
  rw [if_pos (by omega), if_neg (by simpa [facLit] using h)]

theorem isDigitA_not_f {c : Char} (h : isDigitA c = true) :
    toLowerA c ≠ 'f' := by
  have hv : 48 ≤ c.toNat ∧ c.toNat ≤ 57 := of_decide_eq_true h
  unfold toLowerA
  rw [if_neg (by omega)]
  intro he
  subst he
  exact absurd h (by decide)

theorem hasBareFac_digits {l : Str} (hd : ∀ c ∈ l, isDigitA c = true)
    (X : Str) : hasBareFac (l ++ X) = hasBareFac X := by
  induction l with
  | nil => rfl
  | cons c t ih =>
    rw [List.cons_append,
      hasBareFac_cons_none (facMatch_cons_ne
        (isDigitA_not_f (hd c (by simp))) _)]
    exact ih (fun x hx => hd x (by simp [hx]))

/-- The automaton rejects the emitted replacement: after
`facility_id = ` it meets a quote where it needs a digit. -/
theorem facMatch_lit_none (R : Str) :
    facMatch ("facility_id = '".toList ++ R) = none := by
  show facMatch ('f' :: 'a' :: 'c' :: 'i' :: 'l' :: 'i' :: 't' :: 'y' ::
    '_' :: 'i' :: 'd' :: ' ' :: '=' :: ' ' :: '\'' :: R) = none
  simp +decide [facMatch, facRun, facLit, toLowerA, isWsA, isDigitA]

/-- Scanning across the emitted replacement finds no bare match at any
offset inside it. -/
theorem hasBareFac_facRepl {ds : Str} (hd : ∀ c ∈ ds, isDigitA c = true)
    (X : Str) : hasBareFac (facRepl ds ++ X) = hasBareFac X := by
  rw [show facRepl ds ++ X =
    "facility_id = '".toList ++ (padz ds ++ ('\'' :: X)) from by
      simp [facRepl]]
  rw [show ("facility_id = '".toList ++ (padz ds ++ ('\'' :: X))) =
    'f' :: 'a' :: 'c' :: 'i' :: 'l' :: 'i' :: 't' :: 'y' :: '_' :: 'i' ::
    'd' :: ' ' :: '=' :: ' ' :: '\'' :: (padz ds ++ ('\'' :: X)) from rfl]
  rw [hasBareFac_cons_none (by
    exact facMatch_lit_none (padz ds ++ ('\'' :: X)))]
  rw [hasBareFac_cons_none (facMatch_cons_ne (by decide) _),
    hasBareFac_cons_none (facMatch_cons_ne (by decide) _),
    hasBareFac_cons_none (facMatch_cons_ne (by decide) _),
    hasBareFac_cons_none (facMatch_cons_ne (by decide) _),
    hasBareFac_cons_none (facMatch_cons_ne (by decide) _),
    hasBareFac_cons_none (facMatch_cons_ne (by decide) _),
    hasBareFac_cons_none (facMatch_cons_ne (by decide) _),
    hasBareFac_cons_none (facMatch_cons_ne (by decide) _),
    hasBareFac_cons_none (facMatch_cons_ne (by decide) _),
    hasBareFac_cons_none (facMatch_cons_ne (by decide) _),
    hasBareFac_cons_none (facMatch_cons_ne (by decide) _),
    hasBareFac_cons_none (facMatch_cons_ne (by decide) _),
    hasBareFac_cons_none (facMatch_cons_ne (by decide) _),
    hasBareFac_cons_none (facMatch_cons_ne (by decide) _)]
  have hpad : ∀ c ∈ padz ds, isDigitA c = true := by
    intro c hc
    unfold padz at hc
    rcases List.mem_append.mp hc with hc | hc
    · rw [List.eq_of_mem_replicate hc]; decide
    · exact hd c hc
  rw [hasBareFac_digits hpad]
  exact hasBareFac_cons_none (facMatch_cons_ne (by decide) _)

/-- Completeness of the facility-identifier repair: its output contains
no bare `facility_id = <digits>` occurrence. -/
theorem fixFacF_clean : ∀ n (s : Str), s.length ≤ n →
    hasBareFac (fixFacF n s) = false := by
  intro n
  induction n with
  | zero =>
    intro s hs
    match s, hs with
    | [], _ => simp [fixFacF, hasBareFac]
  | succ m ih =>
    intro s hs
    match s with
    | [] => simp [fixFacF, hasBareFac]
    | c :: t =>
      match hm : facMatch (c :: t) with
      | some (ds, rest) =>
        rw [show fixFacF (m + 1) (c :: t) = facRepl ds ++ fixFacF m rest
          from by simp [fixFacF, hm]]
        rw [hasBareFac_facRepl (fun x hx => facRun_digits _ _ _ hm x hx) _]
        have := facRun_length (c :: t) 0 (ds, rest) hm
        exact ih rest (by simp at this hs ⊢; omega)
      | none =>
        rw [show fixFacF (m + 1) (c :: t) = c :: fixFacF m t
          from by simp [fixFacF, hm]]
        rw [hasBareFac_cons_none (facMatch_step m hm)]
        exact ih t (by simpa using Nat.le_of_succ_le_succ hs)

/-- A string with no bare facility predicate is left unchanged by the
facility repair, for any fuel. -/
theorem fixFacF_id : ∀ (s : Str) (n : Nat),
    hasBareFac s = false → fixFacF n s = s := by
  intro s
  induction s with
  | nil => intro n _; cases n <;> rfl
  | cons c t ih =>
    intro n h
    simp only [hasBareFac, Bool.or_eq_false_iff] at h
    cases n with
    | zero => rfl
    | succ m =>
      have hnone : facMatch (c :: t) = none :=
        Option.not_isSome_iff_eq_none.mp (by simp [h.1])
      simp [fixFacF, hnone, ih m h.2]

/-! ## Decimal numerals and the shape of the padding replacement -/

theorem decDigit_toNat {d : Nat} (h : d < 10) :
    (decDigit d).toNat = 48 + d := by
  unfold decDigit Char.ofNat
  rw [dif_pos (by constructor; omega)]
  rfl

theorem decDigit_isDigit {d : Nat} (h : d < 10) :
    isDigitA (decDigit d) = true := by
  simp [isDigitA, decDigit_toNat h]
  omega

theorem isDigitA_not_ws {c : Char} (h : isDigitA c = true) :
    isWsA c = false := by
  have hv : 48 ≤ c.toNat ∧ c.toNat ≤ 57 := of_decide_eq_true h
  simp [isWsA]
  omega

theorem natDigitsF_small {fuel n : Nat} (hf : 1 ≤ fuel) (h : n < 10) :
    natDigitsF fuel n = [decDigit n] := by
  match fuel, hf with
  | f + 1, _ => simp [natDigitsF, h, decDigit]

theorem natDigitsF_step {fuel n : Nat} (hf : 1 ≤ fuel) (h : ¬n < 10) :
    natDigitsF fuel n = natDigitsF (fuel - 1) (n / 10) ++ [decDigit (n % 10)] := by
  match fuel, hf with
  | f + 1, _ => simp [natDigitsF, h, decDigit]

theorem natDigitsF_digits : ∀ (fuel n : Nat), ∀ c ∈ natDigitsF fuel n,
    isDigitA c = true := by
  intro fuel
  induction fuel with
  | zero => intro n c hc; simp [natDigitsF] at hc
  | succ f ih =>
    intro n c hc
    by_cases h : n < 10
    · rw [natDigitsF_small (by omega) h] at hc
      simp at hc
      subst hc
      exact decDigit_isDigit h
    · rw [natDigitsF_step (by omega) h] at hc
      rcases List.mem_append.mp hc with hc | hc
      · exact ih _ _ hc
      · simp at hc
        subst hc
        exact decDigit_isDigit (Nat.mod_lt _ (by omega))

theorem natStr_ne_nil (n : Nat) : natStr n ≠ [] := by
  unfold natStr
  by_cases h : n < 10
  · rw [natDigitsF_small (by omega) h]; simp
  · rw [natDigitsF_step (by omega) h]; simp

/-- `digits.zfill(4)` applied to the unpadded decimal numeral of
`1 ≤ N ≤ 9999` is the four-digit place-value expansion of `N`:
`7` pads to `0007`. -/
theorem padz_natStr {N : Nat} (h1 : 1 ≤ N) (h2 : N ≤ 9999) :
    padz (natStr N) = zeroPad4 N := by
  have d0 : decDigit 0 = '0' := by decide
  unfold natStr padz zeroPad4
  by_cases c1 : N < 10
  · rw [natDigitsF_small (by omega) c1]
    rw [show N / 1000 = 0 from by omega, show N / 100 % 10 = 0 from by omega,
      show N / 10 % 10 = 0 from by omega, show N % 10 = N from by omega, d0]
    simp [List.replicate]
  · by_cases c2 : N < 100
    · rw [natDigitsF_step (by omega) c1,
        natDigitsF_small (by omega) (show N / 10 < 10 by omega)]
      rw [show N / 1000 = 0 from by omega, show N / 100 % 10 = 0 from by omega,
        show N / 10 % 10 = N / 10 from by omega, d0]
      simp [List.replicate]
    · by_cases c3 : N < 1000
      · rw [natDigitsF_step (by omega) c1,
          natDigitsF_step (by omega) (show ¬N / 10 < 10 by omega),
          show N / 10 / 10 = N / 100 from by omega,
          show N / 10 % 10 = N / 10 % 10 from rfl,
          natDigitsF_small (by omega) (show N / 100 < 10 by omega)]
        rw [show N / 1000 = 0 from by omega,
          show N / 100 % 10 = N / 100 from by omega, d0]
        simp [List.replicate]
      · rw [natDigitsF_step (by omega) c1,
          natDigitsF_step (by omega) (show ¬N / 10 < 10 by omega),
          show N / 10 / 10 = N / 100 from by omega,
          natDigitsF_step (by omega) (show ¬N / 100 < 10 by omega),
          show N / 100 / 10 = N / 1000 from by omega,
          natDigitsF_small (by omega) (show N / 1000 < 10 by omega)]
        simp [List.replicate]

theorem takeWhile_digits_append {l r : Str}
    (hl : ∀ c ∈ l, isDigitA c = true) (hr : headNotDigit r = true) :
    (l ++ r).takeWhile isDigitA = l ∧ (l ++ r).dropWhile isDigitA = r := by
  induction l with
  | nil =>
    simp only [List.nil_append]
    match r, hr with
    | [], _ => simp
    | c :: r', hr =>
      have hc : isDigitA c = false := by simpa [headNotDigit] using hr
      simp [List.takeWhile, List.dropWhile, hc]
  | cons a l' ih =>
    have ha : isDigitA a = true := hl a (by simp)
    have h' := ih (fun c hc => hl c (by simp [hc]))
    simp [List.takeWhile, List.dropWhile, ha, h'.1, h'.2]

/-! ## The automaton accepts a well-formed facility occurrence -/

theorem facRun_lit (Y : Str) :
    facRun 0 ("facility_id".toList ++ Y) = facRun 11 Y := by
  show facRun 0 ('f' :: 'a' :: 'c' :: 'i' :: 'l' :: 'i' :: 't' :: 'y' ::
    '_' :: 'i' :: 'd' :: Y) = facRun 11 Y
  simp +decide [facRun, facLit, toLowerA]

theorem facRun_ws11 {ws : Str} (h : ∀ c ∈ ws, isWsA c = true) (Y : Str) :
    facRun 11 (ws ++ Y) = facRun 11 Y := by
  induction ws with
  | nil => rfl
  | cons c w ih =>
    have hc : isWsA c = true := h c (by simp)
    rw [List.cons_append,
      show facRun 11 (c :: (w ++ Y)) = facRun 11 (w ++ Y) from by
        simp +decide [facRun, hc]]
    exact ih (fun x hx => h x (by simp [hx]))

theorem facRun_eq11 (Y : Str) : facRun 11 ('=' :: Y) = facRun 12 Y := by
  simp +decide [facRun, isWsA]

theorem facRun_ws12 {ws : Str} (h : ∀ c ∈ ws, isWsA c = true) (Y : Str) :
    facRun 12 (ws ++ Y) = facRun 12 Y := by
  induction ws with
  | nil => rfl
  | cons c w ih =>
    have hc : isWsA c = true := h c (by simp)
    rw [List.cons_append,
      show facRun 12 (c :: (w ++ Y)) = facRun 12 (w ++ Y) from by
        simp +decide [facRun, hc]]
    exact ih (fun x hx => h x (by simp [hx]))

theorem facRun_digits_run {l r : Str} (hl : ∀ c ∈ l, isDigitA c = true)
    (hne : l ≠ []) (hr : headNotDigit r = true) :
    facRun 12 (l ++ r) = some (l, r) := by
  match l, hne with
  | d :: l', _ =>
    have hd : isDigitA d = true := hl d (by simp)
    have hws : isWsA d = false := isDigitA_not_ws hd
    rw [List.cons_append,
      show facRun 12 (d :: (l' ++ r)) =
        some ((d :: (l' ++ r)).takeWhile isDigitA,
          (d :: (l' ++ r)).dropWhile isDigitA) from by
        simp +decide [facRun, hws, hd]]
    rw [show d :: (l' ++ r) = (d :: l') ++ r from rfl]
    have h' := takeWhile_digits_append hl hr
    rw [h'.1, h'.2]

theorem facMatch_occ {N : Nat} {ws1 ws2 rest : Str}
    (hw1 : ∀ c ∈ ws1, isWsA c = true) (hw2 : ∀ c ∈ ws2, isWsA c = true)
    (hr : headNotDigit rest = true) :
    facMatch ("facility_id".toList ++ ws1 ++ '=' :: ws2 ++ natStr N ++ rest) =
      some (natStr N, rest) := by
  unfold facMatch
  rw [show "facility_id".toList ++ ws1 ++ '=' :: ws2 ++ natStr N ++ rest =
    "facility_id".toList ++ (ws1 ++ '=' :: (ws2 ++ (natStr N ++ rest)))
    from by simp]
  rw [facRun_lit, facRun_ws11 hw1, facRun_eq11, facRun_ws12 hw2]
  exact facRun_digits_run (natDigitsF_digits _ _) (natStr_ne_nil N) hr

/-! ## Scanning across a match-free prefix -/

theorem facRun_append_f : ∀ (u : Str) (st : Nat) (X : Str), 1 ≤ st →
    facRun st u = none → facRun st (u ++ 'f' :: X) = none := by
  intro u
  induction u with
  | nil => intro st X hst _; exact facRun_f_none st _ hst
  | cons c u' ih =>
    intro st X hst h
    rw [List.cons_append]
    unfold facRun at h ⊢
    by_cases h1 : st ≤ 10
    · rw [if_pos h1] at h ⊢
      by_cases h2 : toLowerA c = facLit st
      · rw [if_pos h2] at h ⊢
        exact ih (st + 1) X (by omega) h
      · rw [if_neg h2]
    · rw [if_neg h1] at h ⊢
      by_cases h2 : st = 11
      · rw [if_pos h2] at h ⊢
        by_cases h3 : isWsA c = true
        · rw [if_pos h3] at h ⊢
          exact ih 11 X (by omega) h
        · rw [if_neg h3] at h ⊢
          by_cases h4 : c = '='
          · rw [if_pos h4] at h ⊢
            exact ih 12 X (by omega) h
          · rw [if_neg h4]
      · rw [if_neg h2] at h ⊢
        by_cases h3 : st = 12
        · rw [if_pos h3] at h ⊢
          by_cases h4 : isWsA c = true
          · rw [if_pos h4] at h ⊢
            exact ih 12 X (by omega) h
          · rw [if_neg h4] at h ⊢
            by_cases h5 : isDigitA c = true
            · rw [if_pos h5] at h
              exact absurd h (by simp)
            · rw [if_neg h5]
        · rw [if_neg h3]

theorem fixFacF_congr : ∀ (n m : Nat) (s : Str), s.length ≤ n →
    s.length ≤ m → fixFacF n s = fixFacF m s := by
  intro n
  induction n with
  | zero =>
    intro m s hn _
    match s, hn with
    | [], _ => cases m <;> rfl
  | succ k ih =>
    intro m s hn hm
    match s with
    | [] => cases m <;> rfl
    | c :: t =>
      obtain ⟨j, rfl⟩ : ∃ j, m = j + 1 := ⟨m - 1, by simp at hm; omega⟩
      match hmm : facMatch (c :: t) with
      | some (ds, rest) =>
        rw [show fixFacF (k + 1) (c :: t) = facRepl ds ++ fixFacF k rest
            from by simp [fixFacF, hmm],
          show fixFacF (j + 1) (c :: t) = facRepl ds ++ fixFacF j rest
            from by simp [fixFacF, hmm]]
        have hlen := facRun_length (c :: t) 0 (ds, rest) hmm
        rw [ih j rest (by simp at hlen hn ⊢; omega)
          (by simp at hlen hm ⊢; omega)]
      | none =>
        rw [show fixFacF (k + 1) (c :: t) = c :: fixFacF k t
            from by simp [fixFacF, hmm],
          show fixFacF (j + 1) (c :: t) = c :: fixFacF j t
            from by simp [fixFacF, hmm]]
        rw [ih j t (by simp at hn ⊢; omega) (by simp at hm ⊢; omega)]

theorem fixFacF_skip : ∀ (p X : Str) (n : Nat), hasBareFac p = false →
    fixFacF (p.length + n) (p ++ 'f' :: X) =
      p ++ fixFacF n ('f' :: X) := by
  intro p
  induction p with
  | nil => intro X n _; simp
  | cons c p' ih =>
    intro X n h
    simp only [hasBareFac, Bool.or_eq_false_iff] at h
    have hm : facMatch (c :: p') = none :=
      Option.not_isSome_iff_eq_none.mp (by simp [h.1])
    have hnone : facMatch (c :: (p' ++ 'f' :: X)) = none := by
      unfold facMatch facRun at hm ⊢
      rw [if_pos (by omega)] at hm ⊢
      by_cases hc : toLowerA c = facLit 0
      · rw [if_pos hc] at hm ⊢
        exact facRun_append_f p' 1 X (by omega) hm
      · rw [if_neg hc]
    rw [show (c :: p').length + n = (p'.length + n) + 1 from by
      simp; omega]
    rw [List.cons_append,
      show fixFacF (p'.length + n + 1) (c :: (p' ++ 'f' :: X)) =
        c :: fixFacF (p'.length + n) (p' ++ 'f' :: X) from by
        simp [fixFacF, hnone]]
    rw [ih X n h.2]
    rfl

/-! ## The claims -/

set_option maxRecDepth 10000

/-- C1 (amended): the facility-identifier pass rewrites every bare
`facility_id = N` occurrence into the quoted zero-padded form and no
bare occurrence of `facility_id\s*=\s*\d+` remains in its output.
First conjunct: completeness, for every SQL string.  Second conjunct:
the rewrite itself — for every `1 ≤ N ≤ 9999`, every match-free prefix
`p`, arbitrary whitespace around `=` and any continuation not starting
with a digit, the pass maps
`p ++ "facility_id" ++ ws1 ++ "=" ++ ws2 ++ <decimal of N> ++ rest` to
`p ++ "facility_id = '" ++ <N zero-padded to 4 digits> ++ "'"` followed
by the repaired `rest`, where the padded form is the place-value
expansion `N/1000, N/100 mod 10, N/10 mod 10, N mod 10` (so `7` becomes
`'0007'`).  (Survival of the rewrite through passes 2-4 is not
guaranteed; see the counterexample.) -/
theorem facility_padding_rewrites :
    (∀ s : Str, hasBareFac (fixFacilityId s) = false) ∧
    (∀ (N : Nat) (p ws1 ws2 rest : Str),
      1 ≤ N → N ≤ 9999 → hasBareFac p = false →
      (∀ c ∈ ws1, isWsA c = true) → (∀ c ∈ ws2, isWsA c = true) →
      headNotDigit rest = true →
      fixFacilityId (p ++ "facility_id".toList ++ ws1 ++ '=' :: ws2 ++
          natStr N ++ rest) =
        p ++ "facility_id = '".toList ++ zeroPad4 N ++ '\'' ::
          fixFacilityId rest) := by
  constructor
  · intro s
    exact fixFacF_clean s.length s le_rfl
  · intro N p ws1 ws2 rest h1 h2 hp hw1 hw2 hr
    have hocc : facMatch ("facility_id".toList ++
        (ws1 ++ '=' :: (ws2 ++ (natStr N ++ rest)))) =
        some (natStr N, rest) := by
      have := facMatch_occ (N := N) hw1 hw2 hr
      rw [show "facility_id".toList ++ ws1 ++ '=' :: ws2 ++ natStr N ++
        rest = "facility_id".toList ++
        (ws1 ++ '=' :: (ws2 ++ (natStr N ++ rest))) from by simp] at this
      exact this
    have hassoc : p ++ "facility_id".toList ++ ws1 ++ '=' :: ws2 ++
        natStr N ++ rest =
        p ++ 'f' :: ("acility_id".toList ++
          (ws1 ++ '=' :: (ws2 ++ (natStr N ++ rest)))) := by simp
    rw [hassoc]
    unfold fixFacilityId
    have hlen : (p ++ 'f' :: ("acility_id".toList ++
        (ws1 ++ '=' :: (ws2 ++ (natStr N ++ rest))))).length =
        p.length + (12 + ws1.length + ws2.length + (natStr N).length +
          rest.length) := by
      simp
      omega
    rw [hlen, fixFacF_skip p _ _ hp]
    have hstep : fixFacF (12 + ws1.length + ws2.length +
        (natStr N).length + rest.length)
        ('f' :: ("acility_id".toList ++
          (ws1 ++ '=' :: (ws2 ++ (natStr N ++ rest))))) =
        facRepl (natStr N) ++ fixFacF (11 + ws1.length + ws2.length +
          (natStr N).length + rest.length) rest := by
      rw [show (12 + ws1.length + ws2.length + (natStr N).length +
        rest.length) = (11 + ws1.length + ws2.length + (natStr N).length +
        rest.length) + 1 from by omega]
      rw [show ('f' :: ("acility_id".toList ++
        (ws1 ++ '=' :: (ws2 ++ (natStr N ++ rest))))) =
        "facility_id".toList ++
          (ws1 ++ '=' :: (ws2 ++ (natStr N ++ rest))) from rfl]
      have hocc' : facMatch ('f' :: 'a' :: 'c' :: 'i' :: 'l' :: 'i' ::
          't' :: 'y' :: '_' :: 'i' :: 'd' ::
          (ws1 ++ '=' :: (ws2 ++ (natStr N ++ rest)))) =
          some (natStr N, rest) := hocc
      simp [fixFacF, hocc']
    rw [hstep]
    rw [fixFacF_congr _ rest.length rest (by omega) le_rfl]
    rw [show facRepl (natStr N) = "facility_id = '".toList ++
      zeroPad4 N ++ ['\''] from by
        unfold facRepl
        rw [padz_natStr h1 h2]]
    simp

/-- C1 (witness): the spec's own example — a bare `facility_id = 7`
inside a query becomes `facility_id = '0007'`. -/
theorem facility_padding_rewrites_witness :
    fixFacilityId "SELECT x WHERE facility_id = 7 AND y".toList =
      "SELECT x WHERE facility_id = '0007' AND y".toList := by
  have h := facility_padding_rewrites.2 7 "SELECT x WHERE ".toList [' ']
    [' '] " AND y".toList (by decide) (by decide) (by decide) (by decide)
    (by decide) (by decide)
  rw [show "SELECT x WHERE ".toList ++ "facility_id".toList ++ [' '] ++
      '=' :: [' '] ++ natStr 7 ++ " AND y".toList =
      "SELECT x WHERE facility_id = 7 AND y".toList from by decide] at h
  exact h.trans (by decide)

/-- C1 (counterexample): a bare `facility_id = 7` with `1 ≤ 7 ≤ 9999`
inside an average-turnaround expression.  Pass 1 rewrites it to
`facility_id = '0007'`, but pass 2's `dateDiff` repair then rewrites the
whole expression away, so the full pipeline's output does not contain
the padded predicate the claim requires. -/
theorem facility_padding_pipeline_cex :
    containsSub
      "round(AVG(dateDiff(facility_id = 7))/60.0, 2) AS avg_time_minutes".toList
      "facility_id = 7".toList = true ∧
    containsSub
      (repairPipeline []
        "round(AVG(dateDiff(facility_id = 7))/60.0, 2) AS avg_time_minutes".toList)
      "facility_id = '0007'".toList = false := by
  constructor
  · decide
  · decide

/-- C2 (amended): `process_query` appends exactly one interaction-log
entry on the success outcome and on the unexpected-exception outcome,
but the translation-failure (empty SQL) and executor-failure returns
append nothing: they return with the history unchanged. -/
theorem process_query_logging :
    ∀ (q ts fs : Str) (conv : Str × Option Str) (ex : DFrame × Bool)
      (exc : Option Str) (hist : List LogEntry),
      (conv.1 = [] → (processQuery q ts conv ex fs exc hist).2 = hist) ∧
      (conv.1 ≠ [] → ex.2 = false →
        (processQuery q ts conv ex fs exc hist).2 = hist) ∧
      (conv.1 ≠ [] → ex.2 = true →
        (processQuery q ts conv ex fs none hist).2 =
          logInteraction ⟨ts, q, some conv.1, some ex.1.nrows, true, none⟩
            hist) ∧
      (∀ e, conv.1 ≠ [] → ex.2 = true →
        (processQuery q ts conv ex fs (some e) hist).2 =
          logInteraction ⟨ts, q, none, none, false, some e⟩ hist) := by
  intro q ts fs conv ex exc hist
  refine ⟨?_, ?_, ?_, ?_⟩
  · intro h; simp [processQuery, h]
  · intro h1 h2; simp [processQuery, h1, h2]
  · intro h1 h2; simp [processQuery, h1, h2]
  · intro e h1 h2; simp [processQuery, h1, h2]

/-- C2 (witness): a concrete success run appends its entry through
`logInteraction`. -/
theorem process_query_logging_witness :
    (processQuery "q".toList "t".toList ("SELECT 1".toList, none)
      (⟨1, 1, false⟩, true) [] none []).2 =
      logInteraction ⟨"t".toList, "q".toList, some "SELECT 1".toList,
        some 1, true, none⟩ [] :=
  (process_query_logging "q".toList "t".toList [] ("SELECT 1".toList, none)
    (⟨1, 1, false⟩, true) none []).2.2.1 (by decide) rfl

/-- C2 (counterexample): on the translation-failure outcome (empty SQL)
the claim requires exactly one appended entry, but the history comes
back unchanged — zero entries are appended. -/
theorem process_query_logging_cex :
    (processQuery "q".toList "t".toList ([], some "e".toList)
      (⟨0, 0, false⟩, true) [] none []).2 = [] := by
  decide

/-- C3 (code bug): `_generate_explanation` is annotated `-> str` and the
spec requires a non-null explanation for every input, with an
SQL-structure fallback; but its final `else` holds only an orphaned
nested `def` and no `return`, so for a question matching no keyword and
an SQL with no grouping/ordering/joining the function returns `None`. -/
theorem generate_explanation_none_branch :
    genExplanation "hello".toList "SELECT 1".toList = none := by
  decide

/-- C4 (amended): the date/timezone repair pass localizes
`toDate(col)` only for the five columns `scheduled_time`, `start_time`,
`end_time`, `completed_time`, `assigned_time`; the six other timestamp
columns of the schema (`accepted_time`, `arrived_time`,
`cancelled_time`, `onhold_time`, `inprogress_time`, `rejected_time`)
are left bare. -/
theorem enhance_date_tz_columns :
    ∀ col ∈ timeColumns, enhanceDate [] (tzProbe col) =
      (if col ∈ tzFixedColumns then tzProbeFixed col else tzProbe col) := by
  decide

/-- C4 (witness): the rewritten and unrewritten cases at concrete
columns. -/
theorem enhance_date_tz_columns_witness :
    enhanceDate [] (tzProbe "scheduled_time".toList) =
      tzProbeFixed "scheduled_time".toList ∧
    enhanceDate [] (tzProbe "accepted_time".toList) =
      tzProbe "accepted_time".toList :=
  ⟨(enhance_date_tz_columns "scheduled_time".toList (by decide)).trans
      (by decide),
    (enhance_date_tz_columns "accepted_time".toList (by decide)).trans
      (by decide)⟩

/-- C4 (counterexample): `toDate(accepted_time)` — `accepted_time` is in
`DatabaseSchema.TIME_COLUMNS` — passes through the date/timezone repair
unchanged: no `toTimeZone` localization is inserted, contradicting the
claim that every schema timestamp column is rewritten. -/
theorem enhance_date_tz_cex :
    enhanceDate [] (tzProbe "accepted_time".toList) =
      tzProbe "accepted_time".toList ∧
    containsSub (enhanceDate [] (tzProbe "accepted_time".toList))
      "toTimeZone".toList = false := by
  constructor
  · decide
  · decide

/-- C5: if the text-generation backend raises, the translator returns
the empty SQL string with an error explanation, and the orchestrator
terminates the request as failed with the could-not-understand message;
the executor's result is never consulted (the outcome is identical for
any two executor behaviours). -/
theorem backend_failure_terminates :
    ∀ (q e ts fs : Str) (ex1 ex2 : DFrame × Bool) (exc : Option Str)
      (hist : List LogEntry),
      convertToSql q (.error e) =
        ([], some ("Error generating SQL: ".toList ++ e)) ∧
      processQuery q ts (convertToSql q (.error e)) ex1 fs exc hist =
        ({ success := false,
           error := some "Failed to generate SQL query".toList,
           summary := "❌ Unable to understand your question. Please try rephrasing.".toList,
           sql := none, rowCount := none, explanation := none }, hist) ∧
      processQuery q ts (convertToSql q (.error e)) ex1 fs exc hist =
        processQuery q ts (convertToSql q (.error e)) ex2 fs exc hist := by
  intro q e ts fs ex1 ex2 exc hist
  refine ⟨rfl, ?_, ?_⟩ <;> simp [processQuery, convertToSql]

/-- C6 (amended): the casing substitution itself is complete — after
`re.sub(r'\bCOUNTIf\b', 'countIf', s)` the string contains no whole-word
occurrence of `COUNTIf`, for every SQL string.  (A later pass of the
pipeline can splice text so that a previously non-whole-word occurrence
becomes whole-word again; see the counterexample.) -/
theorem countif_casing_pass_complete :
    ∀ s : Str, hasWordCOUNTIf (fixCOUNTIf s) = false := by
  intro s
  exact cntSubF_clean s.length false s le_rfl

/-- C6 (counterexample): the input contains a whole-word `COUNTIf`, so
the claim requires the full pipeline's output to contain none; but the
NULL/empty repair pass inserts `(` right after the non-word occurrence
`COUNTIfcomp_manually`, turning it into a whole-word `COUNTIf` in the
final output. -/
theorem countif_casing_pipeline_cex :
    hasWordCOUNTIf "COUNTIf( x ) COUNTIfcomp_manually IS NULL".toList
      = true ∧
    hasWordCOUNTIf (repairPipeline "null comp_manually".toList
      "COUNTIf( x ) COUNTIfcomp_manually IS NULL".toList) = true := by
  constructor
  · decide
  · decide

/-- C7: the facility-identifier padding pass and the `COUNTIf` casing
rewrite are idempotent — a second application changes nothing, so
re-running the repair pipeline leaves already-repaired quoted
zero-padded literals and correctly-cased `countIf` unchanged. -/
theorem repair_passes_idempotent :
    ∀ s : Str,
      fixFacilityId (fixFacilityId s) = fixFacilityId s ∧
      fixCOUNTIf (fixCOUNTIf s) = fixCOUNTIf s := by
  intro s
  constructor
  · exact fixFacF_id _ _ (fixFacF_clean s.length s le_rfl)
  · exact cntSubF_id _ false _ (cntSubF_clean s.length false s le_rfl)

/-- C8: the chart decision refuses every empty result and every result
with more than 100 rows, whatever the question says — the early return
precedes the keyword checks, including the temporal-pattern override. -/
theorem chart_refused_on_empty_or_large :
    ∀ (d : DFrame) (q : Str), dfEmpty d = true ∨ 100 < d.nrows →
      shouldCreateChart d q = false := by
  intro d q h
  unfold shouldCreateChart
  rcases h with h | h
  · rw [if_pos (by simp [h])]
  · rw [if_pos (by simp [h])]

/-- C8 (witness): a 101-row numeric result with a temporal-pattern
question is still refused. -/
theorem chart_refused_witness :
    shouldCreateChart ⟨101, 2, true⟩ "daily trends distribution".toList
      = false :=
  chart_refused_on_empty_or_large ⟨101, 2, true⟩
    "daily trends distribution".toList (Or.inr (by decide))

/-- C9: the interaction log is a FIFO of capacity 200 — after every
append the history has exactly `min (previous + 1) 200` entries, never
more than 200, and is a suffix of the appended sequence (the most
recent entries, in insertion order, the oldest evicted first). -/
theorem log_bounded_fifo :
    ∀ (e : LogEntry) (hist : List LogEntry),
      (logInteraction e hist).length = min (hist.length + 1) 200 ∧
      (logInteraction e hist).length ≤ 200 ∧
      (logInteraction e hist) <:+ hist ++ [e] := by
  intro e hist
  unfold logInteraction
  by_cases h : 200 < (hist ++ [e]).length
  · rw [if_pos h]
    have hl : (hist ++ [e]).length = hist.length + 1 := by simp
    refine ⟨?_, ?_, ?_⟩
    · simp only [List.length_drop]
      omega
    · simp only [List.length_drop]
      omega
    · exact ⟨(hist ++ [e]).take ((hist ++ [e]).length - 200),
        List.take_append_drop _ _⟩
  · rw [if_neg h]
    have hl : (hist ++ [e]).length = hist.length + 1 := by simp
    refine ⟨by omega, by omega, List.suffix_refl _⟩

/-- C10: the executor wrapper appends `LIMIT` only when the stripped
query starts with `SELECT` (case-insensitively) and the uppercased
query contains the substring `LIMIT` nowhere; any query already
containing `limit` in any case anywhere, or not starting with `SELECT`,
is sent unmodified, so the requested cap is not enforced for it. -/
theorem limit_append_guard :
    ∀ (q : Str) (l : Int),
      (containsSub (upperStr q) "LIMIT".toList = true →
        execTransform q (some l) = q) ∧
      ("SELECT".toList.isPrefixOf (upperStr (stripA q)) = false →
        execTransform q (some l) = q) ∧
      (0 < l → "SELECT".toList.isPrefixOf (upperStr (stripA q)) = true →
        containsSub (upperStr q) "LIMIT".toList = false →
        execTransform q (some l) = q ++ " LIMIT ".toList ++ intStr l) := by
  intro q l
  refine ⟨?_, ?_, ?_⟩
  · intro h
    show (if (decide (l ≠ 0) && decide (0 < l)
        && "SELECT".toList.isPrefixOf (upperStr (stripA q))
        && !containsSub (upperStr q) "LIMIT".toList) = true then
      q ++ " LIMIT ".toList ++ intStr l else q) = q
    have hc : (decide (l ≠ 0) && decide (0 < l)
        && "SELECT".toList.isPrefixOf (upperStr (stripA q))
        && !containsSub (upperStr q) "LIMIT".toList) = false := by
      rw [h]; simp
    rw [if_neg (by rw [hc]; simp)]
  · intro h
    show (if (decide (l ≠ 0) && decide (0 < l)
        && "SELECT".toList.isPrefixOf (upperStr (stripA q))
        && !containsSub (upperStr q) "LIMIT".toList) = true then
      q ++ " LIMIT ".toList ++ intStr l else q) = q
    have hc : (decide (l ≠ 0) && decide (0 < l)
        && "SELECT".toList.isPrefixOf (upperStr (stripA q))
        && !containsSub (upperStr q) "LIMIT".toList) = false := by
      rw [h]; simp
    rw [if_neg (by rw [hc]; simp)]
  · intro h0 h1 h2
    show (if (decide (l ≠ 0) && decide (0 < l)
        && "SELECT".toList.isPrefixOf (upperStr (stripA q))
        && !containsSub (upperStr q) "LIMIT".toList) = true then
      q ++ " LIMIT ".toList ++ intStr l else q) =
      q ++ " LIMIT ".toList ++ intStr l
    have hc : (decide (l ≠ 0) && decide (0 < l)
        && "SELECT".toList.isPrefixOf (upperStr (stripA q))
        && !containsSub (upperStr q) "LIMIT".toList) = true := by
      rw [h1, h2]
      simp [h0]
      exact ne_of_gt h0
    rw [if_pos hc]

/-- C10 (witness): a positive limit is appended to a plain lowercase
select; a query mentioning a `limit_per_day` alias is sent unmodified. -/
theorem limit_append_guard_witness :
    execTransform "select * from t".toList (some 50) =
      "select * from t".toList ++ " LIMIT ".toList ++ intStr 50 ∧
    execTransform "select limit_per_day from t".toList (some 50) =
      "select limit_per_day from t".toList :=
  ⟨(limit_append_guard "select * from t".toList 50).2.2 (by decide)
      (by decide) (by decide),
    (limit_append_guard "select limit_per_day from t".toList 50).1
      (by decide)⟩

end Porter
